import Mathlib

/-!
Verification of the BioRoute Builder calculation core
(`backend/app/services/calculation_engine.py` and the `validate_route`
endpoint of `backend/main.py`) against its design specification.

Python floats are modelled as exact rationals (`ℚ`); Python dicts keyed by
strings become association lists; the NetworkX `DiGraph` becomes an explicit
node/edge record.  Python object identity matters for one part of the engine
(the stream map stores references to `StreamProperties` objects, and the
pretreatment rule mutates its input object in place), so the propagation loop
is embedded with an explicit heap: the stream map holds heap addresses, and
aliasing in the source is reflected by two keys holding the same address.
-/

/-- `StreamProperties` dataclass: properties of a material/energy stream
between nodes.  Field defaults follow the dataclass declaration
(`temperature = 35.0`, `pressure = 1.0`, everything else `0.0`). -/
structure StreamProperties where
  mass_flow : ℚ := 0
  volume_flow : ℚ := 0
  energy_content : ℚ := 0
  methane_content : ℚ := 0
  cod : ℚ := 0
  vs_content : ℚ := 0
  temperature : ℚ := 35
  pressure : ℚ := 1
deriving Repr, DecidableEq

/-- `StreamProperties.__add__`: component-wise sums for the flow/content
fields, arithmetic mean for temperature, minimum for pressure. -/
def StreamProperties.add (s o : StreamProperties) : StreamProperties where
  mass_flow := s.mass_flow + o.mass_flow
  volume_flow := s.volume_flow + o.volume_flow
  energy_content := s.energy_content + o.energy_content
  methane_content := s.methane_content + o.methane_content
  cod := s.cod + o.cod
  vs_content := s.vs_content + o.vs_content
  temperature := (s.temperature + o.temperature) / 2
  pressure := min s.pressure o.pressure

/-- Value of `CalculationEngine._sum_inputs` on the list of input stream
values: the default stream for an empty list, otherwise a left fold of
`__add__` starting from the first element. -/
def sumInputsVal : List StreamProperties → StreamProperties
  | [] => {}
  | x :: xs => xs.foldl StreamProperties.add x

/-- The six extensive flow/content fields of a stream (the claim about the
stream-sum algebra quantifies over exactly these). -/
def flowFields (s : StreamProperties) : ℚ × ℚ × ℚ × ℚ × ℚ × ℚ :=
  (s.mass_flow, s.volume_flow, s.energy_content, s.methane_content, s.cod, s.vs_content)

/-- One entry of a technology profile's `parameters` list.  Only the
`default_value` of the first entry is read by the engine, so the other
UI-facing fields (bounds, labels, tooltips) are not modelled. -/
structure Parameter where
  key : String
  default_value : ℚ
deriving Repr, DecidableEq

/-- A technology profile from `data/technologies.py` (the fields the
calculation engine and the validation endpoint read). -/
structure Technology where
  id : String
  category : String
  name : String
  accepts : List String
  outputs : List String
  parameters : List Parameter
  defaults : List (String × ℚ)
deriving Repr, DecidableEq

/-- `d.get(key, fallback)` on a string-keyed dict of numbers. -/
def dictGetD (l : List (String × ℚ)) (k : String) (d : ℚ) : ℚ :=
  match l.find? (fun p => p.1 == k) with
  | some p => p.2
  | none => d

/-- A scenario node from the request: `node_id`, `tech_id`, user parameter
overrides. -/
structure NodeInput where
  node_id : String
  tech_id : String
  parameters : List (String × ℚ)
deriving Repr, DecidableEq

/-- A scenario edge from the request (handles are unused by the core). -/
structure EdgeInput where
  source : String
  target : String
deriving Repr, DecidableEq

/-- Attributes stored on a graph node by `build_graph`'s `add_node` call. -/
structure NodeData where
  tech_id : String
  parameters : List (String × ℚ)
deriving Repr, DecidableEq

/-- The NetworkX `DiGraph` as the engine uses it: node ids in insertion
order, an attribute map (nodes auto-created by `add_edge` have no entry,
modelling their missing `tech_id` attribute), and directed edges in
insertion order. -/
structure Graph where
  nodeIds : List String
  attrs : List (String × NodeData)
  edges : List (String × String)
deriving Repr, DecidableEq

/-- `add_node(node_id, tech_id=…, parameters=…)`: re-adding keeps the node's
position and overwrites its attributes. -/
def addNode (g : Graph) (n : NodeInput) : Graph :=
  if g.nodeIds.contains n.node_id then
    { g with attrs := (g.attrs.filter (fun p => p.1 ≠ n.node_id))
                        ++ [(n.node_id, ⟨n.tech_id, n.parameters⟩)] }
  else
    { g with nodeIds := g.nodeIds ++ [n.node_id],
             attrs := g.attrs ++ [(n.node_id, ⟨n.tech_id, n.parameters⟩)] }

/-- `add_edge` silently creates any endpoint that is not yet a node, with an
empty attribute dict (no `tech_id`). -/
def ensureNode (g : Graph) (v : String) : Graph :=
  if g.nodeIds.contains v then g else { g with nodeIds := g.nodeIds ++ [v] }

/-- Recording step of `add_edge`: a `DiGraph` keeps at most one copy of an
edge. -/
def addEdgeRecord (g : Graph) (s t : String) : Graph :=
  if g.edges.contains (s, t) then g else { g with edges := g.edges ++ [(s, t)] }

/-- `add_edge(source, target)`: ensure both endpoints exist, then record the
edge. -/
def addEdge (g : Graph) (e : EdgeInput) : Graph :=
  addEdgeRecord (ensureNode (ensureNode g e.source) e.target) e.source e.target

/-- True when `v` has a predecessor among `remaining` (an edge into `v` whose
source is still unprocessed). -/
def hasPredIn (edges : List (String × String)) (remaining : List String) (v : String) : Bool :=
  edges.any (fun e => e.2 == v && remaining.contains e.1)

/-- Fuel-indexed topological sort (Kahn style, one node per round): pick the
first remaining node without remaining predecessors; fail when none exists
while nodes remain (a cycle). -/
def topoAux (edges : List (String × String)) : Nat → List String → Option (List String)
  | 0, remaining => if remaining.isEmpty then some [] else none
  | fuel + 1, remaining =>
    if remaining.isEmpty then some [] else
    match remaining.find? (fun v => ! hasPredIn edges remaining v) with
    | none => none
    | some v => (topoAux edges fuel (remaining.erase v)).map (fun l => v :: l)

/-- `nx.topological_sort` over the built graph; `none` exactly when the graph
has a cycle (`nx.is_directed_acyclic_graph` is this check's success). -/
def topoSort (g : Graph) : Option (List String) :=
  topoAux g.edges g.nodeIds.length g.nodeIds

/-- The failures the engine can raise (all surfaced as exceptions in the
source: the cycle `ValueError`, the unknown-technology `ValueError`, and the
`KeyError` on a node that `add_edge` created without a `tech_id`). -/
inductive CalcError where
  | cycleError : CalcError
  | techNotFound : String → CalcError
  | missingTechId : String → CalcError
deriving Repr, DecidableEq

/-- `CalculationEngine.build_graph`: add the scenario nodes, then the edges,
then reject the graph unless it is a DAG. -/
def build_graph (nodes : List NodeInput) (edges : List EdgeInput) :
    Except CalcError Graph :=
  let g := edges.foldl addEdge (nodes.foldl addNode ⟨[], [], []⟩)
  if (topoSort g).isSome then Except.ok g else Except.error CalcError.cycleError

/-- `list(self.graph.predecessors(node_id))`: sources of inbound edges, in
edge-insertion order. -/
def predecessors (g : Graph) (v : String) : List String :=
  (g.edges.filter (fun e => e.2 == v)).map (fun e => e.1)

/-- `self.graph.successors(node_id)`: targets of outbound edges, in
edge-insertion order. -/
def successors (g : Graph) (v : String) : List String :=
  (g.edges.filter (fun e => e.1 == v)).map (fun e => e.2)

/-- Python's `round` (banker's rounding) on an exact rational. -/
def roundHalfEven (x : ℚ) : ℤ :=
  let f := Int.floor x
  let r := x - f
  if r < 1 / 2 then f
  else if 1 / 2 < r then f + 1
  else if f % 2 = 0 then f else f + 1

/-- `round(x, n)` from the source, over exact rationals. -/
def pyRound (x : ℚ) (n : ℕ) : ℚ := (roundHalfEven (x * 10 ^ n) : ℚ) / 10 ^ n

/-- `tech['parameters'][0]['default_value'] if tech['parameters'] else 100`
(the fallback quantity in `_calc_feedstock`). -/
def paramDefault0 (tech : Technology) : ℚ :=
  match tech.parameters with
  | [] => 100
  | p :: _ => p.default_value

/-- `CalculationEngine._calc_feedstock`.  The string-valued result entry
(`input_unit`) is omitted; all numeric entries are kept. -/
def calc_feedstock (tech : Technology) (params : List (String × ℚ)) :
    StreamProperties × List (String × ℚ) :=
  let quantity := dictGetD params "quantity" (paramDefault0 tech)
  let defaults := tech.defaults
  if tech.id = "vinasse" ∨ tech.id = "wash_water" then
    let cod := quantity * dictGetD defaults "cod" 25
    let stream : StreamProperties :=
      { volume_flow := quantity, cod := cod, vs_content := cod * 0.7 }
    (stream, [("input_quantity", quantity), ("cod_total", cod),
              ("vs_available", stream.vs_content)])
  else
    let moisture := dictGetD defaults "moisture" 50 / 100
    let vs_fraction := dictGetD defaults "vs" 85 / 100
    let lhv := dictGetD defaults "lhv" 7.5
    let dry_mass := quantity * (1 - moisture)
    let vs_mass := dry_mass * vs_fraction * 1000
    let energy := quantity * 1000 * (1 - moisture) * lhv
    let stream : StreamProperties :=
      { mass_flow := quantity * 1000, vs_content := vs_mass, energy_content := energy }
    (stream, [("input_quantity", quantity), ("dry_mass", dry_mass),
              ("vs_available", vs_mass), ("energy_available_mj", energy)])

/-- `CalculationEngine._calc_pretreatment`, value level.  In the source
`output_stream` *is* `combined` (same object) and `vs_content` is updated in
place before `parasitic_energy` is computed, so the parasitic-energy terms
read the post-update `vs_content`; the write-back of `output_stream` to the
combined stream's heap cell happens in `calculate_node` below. -/
def calc_pretreatment (tech : Technology) (params : List (String × ℚ))
    (combined : StreamProperties) : StreamProperties × List (String × ℚ) :=
  let _ := params
  let biogas_increase := dictGetD tech.defaults "biogas_increase" 15 / 100
  let energy_use := dictGetD tech.defaults "energy_use" 0.3
  let output_stream :=
    { combined with vs_content := combined.vs_content * (1 + biogas_increase) }
  let parasitic_energy : ℚ :=
    if tech.id = "thermal_hydrolysis" then output_stream.vs_content * energy_use
    else if tech.id = "mechanical_prep" then (output_stream.mass_flow / 1000) * energy_use
    else 0
  (output_stream,
   [("biogas_increase_percent", biogas_increase * 100),
    ("parasitic_energy_kwh", parasitic_energy),
    ("effective_vs_output", output_stream.vs_content)])

/-- `CalculationEngine._calc_digester`: COD-driven liquid pathway when the
summed input carries COD, else VS-driven solid pathway. -/
def calc_digester (tech : Technology) (params : List (String × ℚ))
    (combined : StreamProperties) : StreamProperties × List (String × ℚ) :=
  let efficiency0 := dictGetD params "efficiency" (dictGetD tech.defaults "efficiency" 0.70)
  let efficiency := if 1 < efficiency0 then efficiency0 / 100 else efficiency0
  let ch4_content := dictGetD tech.defaults "ch4_content" 0.60
  let pair : ℚ × ℚ :=
    if 0 < combined.cod then
      let ch4_production := combined.cod * 0.35 * efficiency
      (ch4_production, ch4_production / ch4_content)
    else
      let biogas_production := combined.vs_content * 0.40 * efficiency
      (biogas_production * ch4_content, biogas_production)
  let ch4_production := pair.1
  let biogas_production := pair.2
  let energy_output_mj := ch4_production * 35.8
  let energy_output_kwh := energy_output_mj / 3.6
  let stream : StreamProperties :=
    { volume_flow := biogas_production, methane_content := ch4_production,
      energy_content := energy_output_mj }
  (stream,
   [("biogas_nm3_day", pyRound biogas_production 1),
    ("methane_nm3_day", pyRound ch4_production 1),
    ("methane_content_percent", pyRound (ch4_content * 100) 1),
    ("conversion_efficiency", pyRound (efficiency * 100) 1),
    ("energy_output_mj_day", pyRound energy_output_mj 0),
    ("energy_output_kwh_day", pyRound energy_output_kwh 0),
    ("hrt_days", dictGetD tech.defaults "hrt" 20),
    ("olr", dictGetD tech.defaults "olr" 3)])

/-- `CalculationEngine._calc_upgrading`. -/
def calc_upgrading (tech : Technology) (params : List (String × ℚ))
    (combined : StreamProperties) : StreamProperties × List (String × ℚ) :=
  let defaults := tech.defaults
  let recovery0 := dictGetD params "recovery" (dictGetD defaults "recovery" 0.96)
  let recovery := if 1 < recovery0 then recovery0 / 100 else recovery0
  let energy_use := dictGetD defaults "energy_use" 0.25
  let biomethane := combined.methane_content * recovery
  let ch4_purity := dictGetD defaults "ch4_purity" 0.97
  let parasitic_load := combined.volume_flow * energy_use
  let co2_flow := combined.volume_flow * (1 - dictGetD defaults "ch4_content" 0.60)
  let stream : StreamProperties :=
    { volume_flow := biomethane, methane_content := biomethane,
      energy_content := biomethane * 35.8 }
  (stream,
   [("biogas_input_nm3_day", pyRound combined.volume_flow 1),
    ("biomethane_nm3_day", pyRound biomethane 1),
    ("methane_purity_percent", pyRound (ch4_purity * 100) 1),
    ("methane_recovery_percent", pyRound (recovery * 100) 1),
    ("methane_loss_nm3_day", pyRound (combined.methane_content - biomethane) 1),
    ("parasitic_energy_kwh_day", pyRound parasitic_load 0),
    ("co2_separated_nm3_day", pyRound co2_flow 1)])

/-- `CalculationEngine._calc_enduse`: dispatch on technology id into CHP,
biomethane sale, boiler, or flare; terminal nodes emit the default stream. -/
def calc_enduse (tech : Technology) (params : List (String × ℚ))
    (combined : StreamProperties) : StreamProperties × List (String × ℚ) :=
  let defaults := tech.defaults
  let results : List (String × ℚ) :=
    if tech.id ∈ ["ice_cogen", "gas_turbine", "microturbine", "fuel_cell"] then
      let elec_eff0 := dictGetD params "elec_efficiency" (dictGetD defaults "elec_eff" 0.38)
      let therm_eff0 := dictGetD params "therm_efficiency" (dictGetD defaults "therm_eff" 0.45)
      let elec_eff := if 1 < elec_eff0 then elec_eff0 / 100 else elec_eff0
      let therm_eff := if 1 < therm_eff0 then therm_eff0 / 100 else therm_eff0
      let energy_input_kwh := combined.methane_content * 9.97
      let electricity_kwh := energy_input_kwh * elec_eff
      let thermal_kwh := energy_input_kwh * therm_eff
      let elec_price := dictGetD params "elec_price" 350
      let daily_revenue := (electricity_kwh / 1000) * elec_price
      let annual_revenue := daily_revenue * 330
      [("methane_input_nm3_day", pyRound combined.methane_content 1),
       ("energy_input_kwh_day", pyRound energy_input_kwh 0),
       ("electricity_kwh_day", pyRound electricity_kwh 0),
       ("electricity_mwh_year", pyRound (electricity_kwh * 330 / 1000) 0),
       ("thermal_kwh_day", pyRound thermal_kwh 0),
       ("electrical_efficiency_percent", pyRound (elec_eff * 100) 1),
       ("thermal_efficiency_percent", pyRound (therm_eff * 100) 1),
       ("total_efficiency_percent", pyRound ((elec_eff + therm_eff) * 100) 1),
       ("daily_revenue_brl", pyRound daily_revenue 2),
       ("annual_revenue_brl", pyRound annual_revenue 0)]
    else if tech.id ∈ ["biomethane_gnv", "biomethane_grid"] then
      let price := dictGetD params "price" (dictGetD defaults "price" 3.50)
      let daily_revenue := combined.methane_content * price
      let annual_revenue := daily_revenue * 330
      [("biomethane_nm3_day", pyRound combined.methane_content 1),
       ("biomethane_nm3_year", pyRound (combined.methane_content * 330) 0),
       ("price_per_nm3", price),
       ("daily_revenue_brl", pyRound daily_revenue 2),
       ("annual_revenue_brl", pyRound annual_revenue 0)]
    else if tech.id = "boiler" then
      let therm_eff0 := dictGetD params "therm_efficiency" (dictGetD defaults "therm_eff" 0.85)
      let therm_eff := if 1 < therm_eff0 then therm_eff0 / 100 else therm_eff0
      let thermal_kwh := (combined.energy_content / 3.6) * therm_eff
      [("methane_input_nm3_day", pyRound combined.methane_content 1),
       ("thermal_kwh_day", pyRound thermal_kwh 0),
       ("thermal_efficiency_percent", pyRound (therm_eff * 100) 1)]
    else if tech.id = "flare" then
      let destruction_eff := dictGetD defaults "destruction_efficiency" 0.99
      let co2_reduction := combined.methane_content * 21 * destruction_eff
      [("methane_flared_nm3_day", pyRound combined.methane_content 1),
       ("destruction_efficiency_percent", pyRound (destruction_eff * 100) 1),
       ("co2eq_avoided_kg_day", pyRound co2_reduction 0)]
    else []
  (({} : StreamProperties), results)

/-- `CalculationEngine._calc_byproduct`.  The string-valued result entry
(`tech_name`) is omitted. -/
def calc_byproduct (tech : Technology) (params : List (String × ℚ))
    (combined : StreamProperties) : StreamProperties × List (String × ℚ) :=
  let _ := params
  let _ := combined
  (({} : StreamProperties), [("value_per_unit", dictGetD tech.defaults "value" 0)])

/-- `CalculationEngine._sum_inputs` at the heap level: with exactly one input
it returns *the very same object* (the address is passed through unchanged);
otherwise the folded value (or the fresh default for no inputs) is a new
allocation. -/
def sumInputsH (addrs : List Nat) (heap : List StreamProperties) :
    Nat × List StreamProperties :=
  match addrs with
  | [a] => (a, heap)
  | _ => (heap.length, heap ++ [sumInputsVal (addrs.map (fun a => heap.getD a {}))])

/-- Outcome of `_calculate_node`: the address of the output-stream object,
the heap after the call, and the numeric result metrics. -/
structure NodeOutcome where
  outAddr : Nat
  heap : List StreamProperties
  metrics : List (String × ℚ)
deriving Repr, DecidableEq

/-- `CalculationEngine._calculate_node`: category dispatch.  Feedstock ignores
its inputs; pretreatment writes its updated stream back into the combined
stream's cell (the in-place `vs_content` update) and returns that same cell;
the pass-through branch returns the summed input object itself; all other
categories allocate a fresh output stream. -/
def calculate_node (tech : Technology) (params : List (String × ℚ))
    (inputAddrs : List Nat) (heap : List StreamProperties) : NodeOutcome :=
  if tech.category = "feedstock" then
    let (s, m) := calc_feedstock tech params
    ⟨heap.length, heap ++ [s], m⟩
  else if tech.category = "pretreatment" then
    let (caddr, h1) := sumInputsH inputAddrs heap
    let (s, m) := calc_pretreatment tech params (h1.getD caddr {})
    ⟨caddr, h1.set caddr s, m⟩
  else if tech.category = "digester" then
    let (caddr, h1) := sumInputsH inputAddrs heap
    let (s, m) := calc_digester tech params (h1.getD caddr {})
    ⟨h1.length, h1 ++ [s], m⟩
  else if tech.category = "upgrading" then
    let (caddr, h1) := sumInputsH inputAddrs heap
    let (s, m) := calc_upgrading tech params (h1.getD caddr {})
    ⟨h1.length, h1 ++ [s], m⟩
  else if tech.category = "enduse" then
    let (caddr, h1) := sumInputsH inputAddrs heap
    let (s, m) := calc_enduse tech params (h1.getD caddr {})
    ⟨h1.length, h1 ++ [s], m⟩
  else if tech.category = "byproduct" then
    let (caddr, h1) := sumInputsH inputAddrs heap
    let (s, m) := calc_byproduct tech params (h1.getD caddr {})
    ⟨h1.length, h1 ++ [s], m⟩
  else
    let (caddr, h1) := sumInputsH inputAddrs heap
    ⟨caddr, h1, []⟩

/-- Per-node result record stored in `node_results` (numeric metrics plus the
denormalized tech id/name/category). -/
structure NodeResult where
  metrics : List (String × ℚ)
  tech_id : String
  tech_name : String
  category : String
deriving Repr, DecidableEq

/-- Mutable state of the propagation loop: the heap of stream objects, the
`streams` dict mapping edge keys to heap addresses, and the accumulated
`node_results` in processing order. -/
structure CalcState where
  heap : List StreamProperties
  streams : List (String × Nat)
  results : List (String × NodeResult)
deriving Repr, DecidableEq

/-- The `"source->target"` stream-map key. -/
def edgeKey (s t : String) : String := s ++ "->" ++ t

/-- Address lookup in the `streams` dict. -/
def lookupAddr (streams : List (String × Nat)) (k : String) : Option Nat :=
  (streams.find? (fun p => p.1 == k)).map (fun p => p.2)

/-- `streams.get(key, StreamProperties())` for each predecessor: a present
key yields the stored object's address; a missing key allocates a fresh
default object. -/
def resolveInputs (preds : List String) (nid : String)
    (streams : List (String × Nat)) (heap : List StreamProperties) :
    List Nat × List StreamProperties :=
  preds.foldl
    (fun acc p =>
      match lookupAddr streams (edgeKey p nid) with
      | some a => (acc.1 ++ [a], acc.2)
      | none => (acc.1 ++ [acc.2.length], acc.2 ++ [({} : StreamProperties)]))
    ([], heap)

/-- `streams[key] = output_stream`: dict assignment. -/
def insertAddr (streams : List (String × Nat)) (k : String) (a : Nat) :
    List (String × Nat) :=
  if streams.any (fun p => p.1 == k) then
    streams.map (fun p => if p.1 == k then (k, a) else p)
  else streams ++ [(k, a)]

/-- One iteration of the `for node_id in calc_order` loop of
`calculate_route`: look up the node's attributes (a node auto-created by
`add_edge` has none — the `KeyError`), look up its technology, gather the
inbound streams, run the category rule, record the result, and store the
output object's address under every outgoing edge key (every successor
receives the *same* object). -/
def processNode (db : List Technology) (g : Graph) (st : CalcState) (nid : String) :
    Except CalcError CalcState :=
  match (g.attrs.find? (fun p => p.1 == nid)).map (fun p => p.2) with
  | none => Except.error (CalcError.missingTechId nid)
  | some nd =>
    match db.find? (fun t => t.id == nd.tech_id) with
    | none => Except.error (CalcError.techNotFound nd.tech_id)
    | some tech =>
      let ah := resolveInputs (predecessors g nid) nid st.streams st.heap
      let o := calculate_node tech nd.parameters ah.1 ah.2
      let streams2 := (successors g nid).foldl
        (fun m s => insertAddr m (edgeKey nid s) o.outAddr) st.streams
      Except.ok ⟨o.heap, streams2,
        st.results ++ [(nid, ⟨o.metrics, nd.tech_id, tech.name, tech.category⟩)]⟩

/-- Plant-wide summary produced by `_aggregate_results`. -/
structure Summary where
  biogas_nm3_day : ℚ
  methane_nm3_day : ℚ
  biomethane_nm3_day : ℚ
  electricity_kwh_day : ℚ
  electricity_mwh_year : ℚ
  thermal_kwh_day : ℚ
  annual_revenue_brl : ℚ
  emissions_avoided_kg_day : ℚ
  emissions_avoided_ton_year : ℚ
deriving Repr, DecidableEq

/-- Full calculation result: summary, per-node details, and the stream map
with every address resolved to its final heap value (`asdict`). -/
structure CalcResult where
  summary : Summary
  node_details : List (String × NodeResult)
  streams : List (String × StreamProperties)
deriving Repr, DecidableEq

/-- `CalculationEngine._aggregate_results`. -/
def aggregate_results (node_results : List (String × NodeResult))
    (streams : List (String × Nat)) (heap : List StreamProperties) : CalcResult :=
  let total_biogas := (node_results.map (fun r => dictGetD r.2.metrics "biogas_nm3_day" 0)).sum
  let total_methane := (node_results.map (fun r => dictGetD r.2.metrics "methane_nm3_day" 0)).sum
  let total_biomethane := (node_results.map (fun r => dictGetD r.2.metrics "biomethane_nm3_day" 0)).sum
  let total_electricity := (node_results.map (fun r => dictGetD r.2.metrics "electricity_kwh_day" 0)).sum
  let total_thermal := (node_results.map (fun r => dictGetD r.2.metrics "thermal_kwh_day" 0)).sum
  let total_revenue := (node_results.map (fun r => dictGetD r.2.metrics "annual_revenue_brl" 0)).sum
  let emissions_avoided_daily := (total_methane + total_biomethane) * 2.75
  let emissions_avoided_annual := emissions_avoided_daily * 330
  { summary :=
      { biogas_nm3_day := pyRound total_biogas 0
        methane_nm3_day := pyRound total_methane 0
        biomethane_nm3_day := pyRound total_biomethane 0
        electricity_kwh_day := pyRound total_electricity 0
        electricity_mwh_year := pyRound (total_electricity * 330 / 1000) 0
        thermal_kwh_day := pyRound total_thermal 0
        annual_revenue_brl := pyRound total_revenue 0
        emissions_avoided_kg_day := pyRound emissions_avoided_daily 0
        emissions_avoided_ton_year := pyRound (emissions_avoided_annual / 1000) 1 }
    node_details := node_results
    streams := streams.map (fun p => (p.1, heap.getD p.2 {})) }

/-- `CalculationEngine.calculate_route`: build the graph, compute the
topological order, process every node in that order, aggregate. -/
def calculate_route (db : List Technology) (nodes : List NodeInput)
    (edges : List EdgeInput) : Except CalcError CalcResult :=
  match build_graph nodes edges with
  | Except.error e => Except.error e
  | Except.ok g =>
    match topoSort g with
    | none => Except.error CalcError.cycleError
    | some calc_order =>
      match calc_order.foldlM (processNode db g) (⟨[], [], []⟩ : CalcState) with
      | Except.error e => Except.error e
      | Except.ok final =>
        Except.ok (aggregate_results final.results final.streams final.heap)

/-- The `vinasse` entry of `TECH_DATABASE` (the engine-relevant fields). -/
def vinasseTech : Technology :=
  { id := "vinasse", category := "feedstock", name := "Vinhaça",
    accepts := [], outputs := ["liquid_organic"],
    parameters := [{ key := "quantity", default_value := 1000 }],
    defaults := [("cod", 25), ("bod", 15), ("ph", 4.5), ("temperature", 80)] }

/-- The `thermal_hydrolysis` entry of `TECH_DATABASE`. -/
def thermalHydrolysisTech : Technology :=
  { id := "thermal_hydrolysis", category := "pretreatment", name := "Hidrólise Térmica",
    accepts := ["solid_biomass"], outputs := ["treated_solid"],
    parameters := [{ key := "temperature", default_value := 170 }],
    defaults := [("biogas_increase", 25), ("energy_use", 0.5), ("retention_time", 30)] }

/-- The `uasb` entry of `TECH_DATABASE`. -/
def uasbTech : Technology :=
  { id := "uasb", category := "digester", name := "UASB (Reator Anaeróbio de Manta de Lodo)",
    accepts := ["liquid_organic"], outputs := ["biogas", "digestate"],
    parameters := [{ key := "efficiency", default_value := 80 },
                   { key := "hrt", default_value := 1 }],
    defaults := [("efficiency", 0.80), ("hrt", 1), ("olr", 15), ("temperature", 35),
                 ("ch4_content", 0.65)] }

/-- The `flare` entry of `TECH_DATABASE`. -/
def flareTech : Technology :=
  { id := "flare", category := "enduse", name := "Flare (Queima)",
    accepts := ["biogas", "biomethane"], outputs := ["emissions_reduction"],
    parameters := [],
    defaults := [("destruction_efficiency", 0.99), ("capex", 50), ("co2_reduction", 21)] }

/-- The slice of `TECH_DATABASE` exercised by the concrete routes below. -/
def TECH_DB : List Technology :=
  [vinasseTech, thermalHydrolysisTech, uasbTech, flareTech]

/-- One entry of the `errors` list of the validation endpoint.  The `details`
string of the source interpolates Python `set` reprs (whose element order is
unspecified), so only its presence is modelled, not its text. -/
structure ValidationError where
  edge : Option String
  error : String
deriving Repr, DecidableEq

/-- Shape of the `/api/validate` response body. -/
structure ValidationResponse where
  success : Bool
  valid : Bool
  errors : List ValidationError
  message : Option String
deriving Repr, DecidableEq

/-- The edge label used in validation errors (`"src -> tgt"`, with spaces). -/
def edgeLabel (e : EdgeInput) : String := e.source ++ " -> " ++ e.target

/-- One iteration of the compatibility loop in `validate_route`: resolve the
edge's endpoint nodes (`next(...)` — a missing node raises `StopIteration`,
modelled as `Except.error`), look up both technologies (`TECH_DATABASE[...]`
— a missing id raises `KeyError`, likewise), then flag the edge when the
target's accepted-kind set is non-empty and disjoint from the source's
output-kind set. -/
def checkEdge (db : List Technology) (nodes : List NodeInput) (e : EdgeInput) :
    Except Unit (Option ValidationError) :=
  match nodes.find? (fun n => n.node_id == e.source),
        nodes.find? (fun n => n.node_id == e.target) with
  | some sn, some tn =>
    match db.find? (fun t => t.id == sn.tech_id),
          db.find? (fun t => t.id == tn.tech_id) with
    | some st, some tt =>
      if tt.accepts.isEmpty then Except.ok none
      else if st.outputs.any (fun o => tt.accepts.contains o) then Except.ok none
      else Except.ok (some { edge := some (edgeLabel e), error := "Incompatible connection" })
    | _, _ => Except.error ()
  | _, _ => Except.error ()

/-- `validate_route` from `backend/main.py`: build the graph (a cycle's
`ValueError` is caught and reported as a single-error invalid response), then
collect one error entry per incompatible edge; valid exactly when no errors
were collected.  Lookup failures inside the loop are not `ValueError`s and
escape the handler (`Except.error`). -/
def validate_route (db : List Technology) (nodes : List NodeInput)
    (edges : List EdgeInput) : Except Unit ValidationResponse :=
  match build_graph nodes edges with
  | Except.error _ =>
    Except.ok { success := false, valid := false,
                errors := [{ edge := none,
                             error := "Route contains cycles - invalid configuration" }],
                message := none }
  | Except.ok _ =>
    match edges.mapM (checkEdge db nodes) with
    | Except.error _ => Except.error ()
    | Except.ok opts =>
      let errors := opts.reduceOption
      if errors.isEmpty then
        Except.ok { success := true, valid := true, errors := [],
                    message := some "Route configuration is valid" }
      else
        Except.ok { success := false, valid := false, errors := errors, message := none }

/-- The value a successful `checkEdge` produces (`none` for error cases,
which are excluded by hypothesis where this is used). -/
def checkEdgeVal (db : List Technology) (nodes : List NodeInput) (e : EdgeInput) :
    Option ValidationError :=
  match checkEdge db nodes e with
  | Except.ok v => v
  | Except.error _ => none

/-- The edge is flagged by the compatibility check: both endpoints and both
technologies resolve, the target's accepted-kind set is non-empty, and it
does not intersect the source's output-kind set. -/
def incompatibleEdge (db : List Technology) (nodes : List NodeInput) (e : EdgeInput) :
    Bool :=
  match checkEdge db nodes e with
  | Except.ok (some _) => true
  | _ => false

/-- A finite edge list is acyclic exactly when its vertices admit a ranking
strictly increasing along every edge. -/
def Acyclic (edges : List (String × String)) : Prop :=
  ∃ rank : String → ℕ, ∀ e ∈ edges, rank e.1 < rank e.2

/-- The edge list contains a directed cycle: a chain of edges leading from
some vertex back to itself. -/
def HasCycle (edges : List (String × String)) : Prop :=
  ∃ v p, List.Chain (fun a b => (a, b) ∈ edges) v (p ++ [v])

/-- An output order respects the edges: no edge's source occurs at or after
an occurrence of its target. -/
def EdgeRespecting (edges : List (String × String)) (out : List String) : Prop :=
  ∀ e ∈ edges, ∀ pre post, out = pre ++ e.2 :: post → e.1 ∉ e.2 :: post

/-- Position of the first occurrence of `v` in `l` (length of `l` when
absent); used to turn an edge-respecting order into an `Acyclic` ranking. -/
def posIn (l : List String) (v : String) : ℕ :=
  match l with
  | [] => 0
  | a :: t => if v = a then 0 else posIn t v + 1

/-- The recorded vs-content of the stream on edge `key` after a full route
calculation (`none` when the calculation fails or the key is absent). -/
def routeStreamVS (db : List Technology) (nodes : List NodeInput)
    (edges : List EdgeInput) (key : String) : Option ℚ :=
  match calculate_route db nodes edges with
  | Except.ok r => (r.streams.find? (fun p => p.1 == key)).map (fun p => p.2.vs_content)
  | Except.error _ => none

theorem dictGetD_cons_self (k : String) (v d : ℚ) (l : List (String × ℚ)) :
    dictGetD ((k, v) :: l) k d = v := by
  simp [dictGetD, List.find?]

theorem dictGetD_cons_ne (k2 k : String) (v d : ℚ) (l : List (String × ℚ))
    (h : k2 ≠ k) : dictGetD ((k2, v) :: l) k d = dictGetD l k d := by
  have hb : (k2 == k) = false := beq_eq_false_iff_ne.mpr h
  simp [dictGetD, List.find?, hb]

theorem getD_append_length (l : List StreamProperties) (x d : StreamProperties) :
    (l ++ [x]).getD l.length d = x := by
  simp [List.getD_eq_getElem?_getD, List.getElem?_concat_length]

/-- Claim C2: a digester whose summed input stream carries COD = 25000 (so
the liquid, COD-driven pathway is selected), with resolved efficiency 0.80
and methane-content fraction 0.65, emits an output stream with methane
volume 25000 × 0.35 × 0.80 = 7000, biogas volume 7000 / 0.65, and energy
content 7000 × 35.8 = 250600. -/
theorem digester_liquid_cod25000 (tech : Technology) (params : List (String × ℚ))
    (combined : StreamProperties)
    (heff : dictGetD params "efficiency" (dictGetD tech.defaults "efficiency" 0.70) = 0.80)
    (hch4 : dictGetD tech.defaults "ch4_content" 0.60 = 0.65)
    (hcod : combined.cod = 25000) :
    (calc_digester tech params combined).1.methane_content = 25000 * 0.35 * 0.80 ∧
    (calc_digester tech params combined).1.methane_content = 7000 ∧
    (calc_digester tech params combined).1.volume_flow = 7000 / 0.65 ∧
    (calc_digester tech params combined).1.energy_content = 7000 * 35.8 ∧
    (calc_digester tech params combined).1.energy_content = 250600 := by
  simp only [calc_digester, heff, hch4, hcod]
  norm_num

theorem digester_liquid_cod25000_witness :
    dictGetD [(("efficiency" : String), (0.80 : ℚ))] "efficiency"
        (dictGetD uasbTech.defaults "efficiency" 0.70) = 0.80 ∧
    dictGetD uasbTech.defaults "ch4_content" 0.60 = 0.65 ∧
    ({ cod := 25000 } : StreamProperties).cod = 25000 ∧
    (calc_digester uasbTech [("efficiency", 0.80)] { cod := 25000 }).1.methane_content
      = 7000 := by
  have h1 : dictGetD [(("efficiency" : String), (0.80 : ℚ))] "efficiency"
      (dictGetD uasbTech.defaults "efficiency" 0.70) = 0.80 := dictGetD_cons_self _ _ _ _
  have h2 : dictGetD uasbTech.defaults "ch4_content" 0.60 = 0.65 := rfl
  exact ⟨h1, h2, rfl,
    (digester_liquid_cod25000 uasbTech [("efficiency", 0.80)] { cod := 25000 }
      h1 h2 rfl).2.1⟩

/-- Claim C5 counterexample: the "empty" output stream an end-use node emits
is the dataclass default, whose `temperature` field is 35, not 0 (and whose
`pressure` is 1, not 0) — even while the node computes non-zero metrics. -/
theorem enduse_stream_not_all_zero :
    (calc_enduse flareTech [] { methane_content := 100 }).1.temperature = 35 ∧
    (calc_enduse flareTech [] { methane_content := 100 }).1.pressure = 1 ∧
    ((35 : ℚ) ≠ 0 ∧ (1 : ℚ) ≠ 0) ∧
    dictGetD (calc_enduse flareTech [] { methane_content := 100 }).2
      "co2eq_avoided_kg_day" 0 = 2079 := by
  refine ⟨rfl, rfl, by norm_num, ?_⟩
  have h : dictGetD (calc_enduse flareTech [] { methane_content := 100 }).2
      "co2eq_avoided_kg_day" 0 = pyRound ((100 : ℚ) * 21 * 0.99) 0 := rfl
  rw [h]
  norm_num [pyRound, roundHalfEven]

/-- Claim C5 (amended): for every end-use node the emitted output stream is
the default stream — all six flow/content fields are zero, while temperature
and pressure carry the dataclass defaults 35 and 1 — regardless of the
computed revenue/energy metrics. -/
theorem enduse_stream_is_default (tech : Technology) (params : List (String × ℚ))
    (combined : StreamProperties) :
    (calc_enduse tech params combined).1 =
      { mass_flow := 0, volume_flow := 0, energy_content := 0, methane_content := 0,
        cod := 0, vs_content := 0, temperature := 35, pressure := 1 } := rfl

/-- Claim C9: a liquid feedstock node (id `vinasse` or `wash_water`) whose
quantity resolves to 1000 and whose COD coefficient default is 25 produces an
output stream with COD = 25000 and volatile solids = 0.7 × 25000 = 17500,
regardless of the inbound streams handed to the node. -/
theorem feedstock_liquid_quantity1000 (tech : Technology) (params : List (String × ℚ))
    (inputAddrs : List Nat) (heap : List StreamProperties)
    (hid : tech.id = "vinasse" ∨ tech.id = "wash_water")
    (hcat : tech.category = "feedstock")
    (hq : dictGetD params "quantity" (paramDefault0 tech) = 1000)
    (hcod : dictGetD tech.defaults "cod" 25 = 25) :
    ((calculate_node tech params inputAddrs heap).heap.getD
        (calculate_node tech params inputAddrs heap).outAddr {}).cod = 25000 ∧
    ((calculate_node tech params inputAddrs heap).heap.getD
        (calculate_node tech params inputAddrs heap).outAddr {}).vs_content = 17500 := by
  have hnode : calculate_node tech params inputAddrs heap =
      ⟨heap.length, heap ++ [(calc_feedstock tech params).1], (calc_feedstock tech params).2⟩ := by
    rw [calculate_node, if_pos hcat]
  rw [hnode]
  simp only [getD_append_length]
  rw [calc_feedstock, if_pos hid, hq, hcod]
  norm_num

theorem feedstock_liquid_quantity1000_witness :
    (vinasseTech.id = "vinasse" ∨ vinasseTech.id = "wash_water") ∧
    vinasseTech.category = "feedstock" ∧
    dictGetD [] "quantity" (paramDefault0 vinasseTech) = 1000 ∧
    dictGetD vinasseTech.defaults "cod" 25 = 25 ∧
    ((calculate_node vinasseTech [] [] []).heap.getD
        (calculate_node vinasseTech [] [] []).outAddr {}).cod = 25000 := by
  have h1 : vinasseTech.id = "vinasse" ∨ vinasseTech.id = "wash_water" := Or.inl rfl
  have h3 : dictGetD [] "quantity" (paramDefault0 vinasseTech) = 1000 := rfl
  have h4 : dictGetD vinasseTech.defaults "cod" 25 = 25 := rfl
  exact ⟨h1, rfl, h3, h4,
    (feedstock_liquid_quantity1000 vinasseTech [] [] [] h1 rfl h3 h4).1⟩

theorem hasPredIn_iff (edges : List (String × String)) (rem : List String) (v : String) :
    hasPredIn edges rem v = true ↔ ∃ e ∈ edges, e.2 = v ∧ e.1 ∈ rem := by
  simp [hasPredIn]

theorem exists_min_rank (f : String → ℕ) :
    ∀ l : List String, l ≠ [] → ∃ v ∈ l, ∀ u ∈ l, f v ≤ f u := by
  intro l
  induction l with
  | nil => intro h; exact absurd rfl h
  | cons a t ih =>
    intro _
    rcases eq_or_ne t [] with ht | ht
    · subst ht
      exact ⟨a, List.mem_cons_self a [], by simp⟩
    · obtain ⟨v, hv, hmin⟩ := ih ht
      by_cases hav : f a ≤ f v
      · refine ⟨a, List.mem_cons_self a t, ?_⟩
        intro u hu
        rcases List.mem_cons.mp hu with h | h
        · exact h ▸ Nat.le_refl _
        · exact Nat.le_trans hav (hmin u h)
      · refine ⟨v, List.mem_cons_of_mem a hv, ?_⟩
        intro u hu
        rcases List.mem_cons.mp hu with h | h
        · exact h ▸ Nat.le_of_lt (Nat.lt_of_not_le hav)
        · exact hmin u h

theorem find_ready_of_acyclic (edges : List (String × String)) (rem : List String)
    (hac : Acyclic edges) (hne : rem ≠ []) :
    (rem.find? (fun v => ! hasPredIn edges rem v)).isSome := by
  obtain ⟨rank, hr⟩ := hac
  obtain ⟨v, hv, hmin⟩ := exists_min_rank rank rem hne
  refine List.find?_isSome.mpr ⟨v, hv, ?_⟩
  cases hp : hasPredIn edges rem v with
  | false => rfl
  | true =>
    exfalso
    obtain ⟨e, he, hev, hein⟩ := (hasPredIn_iff edges rem v).mp hp
    have h1 := hr e he
    have h2 := hmin e.1 hein
    rw [hev] at h1
    exact absurd h2 (Nat.not_le_of_lt h1)

theorem chain_rank_lt (edges : List (String × String)) (rank : String → ℕ)
    (hr : ∀ e ∈ edges, rank e.1 < rank e.2) :
    ∀ (l : List String) (v w : String),
      List.Chain (fun a b => (a, b) ∈ edges) v (l ++ [w]) → rank v < rank w := by
  intro l
  induction l with
  | nil =>
    intro v w h
    cases h with
    | cons hvw _ => exact hr (v, w) hvw
  | cons a t ih =>
    intro v w h
    cases h with
    | cons hva hrest => exact Nat.lt_trans (hr (v, a) hva) (ih a w hrest)

theorem not_acyclic_of_hasCycle (edges : List (String × String))
    (hc : HasCycle edges) : ¬ Acyclic edges := by
  rintro ⟨rank, hr⟩
  obtain ⟨v, p, hchain⟩ := hc
  exact Nat.lt_irrefl _ (chain_rank_lt edges rank hr p v v hchain)

theorem posIn_lt (u w : String) :
    ∀ pre post : List String, u ∈ pre → w ∉ pre →
      posIn (pre ++ w :: post) u < posIn (pre ++ w :: post) w := by
  intro pre
  induction pre with
  | nil => intro post hu _; cases hu
  | cons a t ih =>
    intro post hu hw
    have hwa : w ≠ a := fun h => hw (h ▸ List.mem_cons_self a t)
    simp only [List.cons_append, posIn]
    rw [if_neg hwa]
    by_cases hua : u = a
    · rw [if_pos hua]
      exact Nat.succ_pos _
    · rw [if_neg hua]
      have hut : u ∈ t := by
        rcases List.mem_cons.mp hu with h | h
        · exact absurd h hua
        · exact h
      have h2 := ih post hut (fun h => hw (List.mem_cons_of_mem a h))
      simp only [List.append_eq] at h2 ⊢
      omega

theorem acyclic_of_edgeRespecting (edges : List (String × String)) (out : List String)
    (hnd : out.Nodup)
    (hmem : ∀ e ∈ edges, e.1 ∈ out ∧ e.2 ∈ out)
    (her : EdgeRespecting edges out) : Acyclic edges := by
  refine ⟨posIn out, ?_⟩
  intro e he
  obtain ⟨h1, h2⟩ := hmem e he
  obtain ⟨pre, post, hdec⟩ := List.append_of_mem h2
  have hnot := her e he pre post hdec
  have h1p : e.1 ∈ pre := by
    rw [hdec] at h1
    rcases List.mem_append.mp h1 with h | h
    · exact h
    · exact absurd h hnot
  have hw : e.2 ∉ pre := by
    rw [hdec] at hnd
    intro hmem2
    exact (List.nodup_append.mp hnd).2.2 hmem2 (List.mem_cons_self _ _)
  rw [hdec]
  exact posIn_lt e.1 e.2 pre post h1p hw

theorem topoAux_spec (edges : List (String × String)) :
    ∀ (fuel : ℕ) (remaining out : List String),
      topoAux edges fuel remaining = some out →
      out.Perm remaining ∧ EdgeRespecting edges out := by
  intro fuel
  induction fuel with
  | zero =>
    intro remaining out h
    simp only [topoAux] at h
    split at h
    · rename_i hemp
      cases h
      have : remaining = [] := List.isEmpty_iff.mp hemp
      subst this
      refine ⟨List.Perm.refl _, ?_⟩
      intro e he pre post hd
      exact absurd hd (by simp)
    · cases h
  | succ fuel ih =>
    intro remaining out h
    simp only [topoAux] at h
    split at h
    · rename_i hemp
      cases h
      have : remaining = [] := List.isEmpty_iff.mp hemp
      subst this
      refine ⟨List.Perm.refl _, ?_⟩
      intro e he pre post hd
      exact absurd hd (by simp)
    · rename_i hemp
      split at h
      · cases h
      · rename_i v heq
        cases hx : topoAux edges fuel (remaining.erase v) with
        | none => rw [hx] at h; cases h
        | some l =>
          rw [hx] at h
          simp only [Option.map_some', Option.some.injEq] at h
          subst h
          obtain ⟨hperm, her⟩ := ih (remaining.erase v) l hx
          have hv : v ∈ remaining := List.mem_of_find?_eq_some heq
          have hpred : (! hasPredIn edges remaining v) = true := by
            have hp := List.find?_some heq
            simpa using hp
          refine ⟨(hperm.cons v).trans (List.perm_cons_erase hv).symm, ?_⟩
          intro e he pre post hdec
          cases pre with
          | nil =>
            simp only [List.nil_append, List.cons.injEq] at hdec
            obtain ⟨hv2, hlpost⟩ := hdec
            intro hmemc
            have h1in : e.1 ∈ remaining := by
              rcases List.mem_cons.mp hmemc with h | h
              · rw [h, ← hv2]; exact hv
              · rw [← hlpost] at h
                exact List.mem_of_mem_erase ((hperm.mem_iff).mp h)
            have htrue : hasPredIn edges remaining v = true :=
              (hasPredIn_iff edges remaining v).mpr ⟨e, he, hv2.symm, h1in⟩
            rw [htrue] at hpred
            cases hpred
          | cons a pre2 =>
            simp only [List.cons_append, List.cons.injEq] at hdec
            exact her e he pre2 post hdec.2

theorem topoAux_isSome_of_acyclic (edges : List (String × String))
    (hac : Acyclic edges) :
    ∀ (fuel : ℕ) (remaining : List String), remaining.length ≤ fuel →
      (topoAux edges fuel remaining).isSome := by
  intro fuel
  induction fuel with
  | zero =>
    intro remaining hlen
    have : remaining = [] := List.eq_nil_of_length_eq_zero (Nat.le_zero.mp hlen)
    subst this
    simp [topoAux]
  | succ fuel ih =>
    intro remaining hlen
    by_cases hemp : remaining.isEmpty
    · simp [topoAux, hemp]
    · have hne : remaining ≠ [] := by
        intro h; rw [h] at hemp; exact hemp rfl
      obtain ⟨v, heq⟩ := Option.isSome_iff_exists.mp
        (find_ready_of_acyclic edges remaining hac hne)
      have hv : v ∈ remaining := List.mem_of_find?_eq_some heq
      have hlen2 : (remaining.erase v).length ≤ fuel := by
        rw [List.length_erase_of_mem hv]
        have hpos : 0 < remaining.length := List.length_pos.mpr hne
        omega
      have hrec := ih (remaining.erase v) hlen2
      simp only [topoAux, hemp, Bool.false_eq_true, if_false, heq, Option.isSome_map']
      exact hrec

theorem topoSort_some_spec (g : Graph) (out : List String)
    (h : topoSort g = some out) :
    out.Perm g.nodeIds ∧ EdgeRespecting g.edges out :=
  topoAux_spec g.edges g.nodeIds.length g.nodeIds out h

/-- Well-formedness maintained by the graph builder: node ids are
duplicate-free and every edge endpoint is a node. -/
def GraphWF (g : Graph) : Prop :=
  g.nodeIds.Nodup ∧ ∀ p ∈ g.edges, p.1 ∈ g.nodeIds ∧ p.2 ∈ g.nodeIds

theorem addNode_edges (g : Graph) (n : NodeInput) : (addNode g n).edges = g.edges := by
  unfold addNode
  split <;> rfl

theorem addNode_nodeIds_sup (g : Graph) (n : NodeInput) (v : String) :
    v ∈ (addNode g n).nodeIds ↔ v ∈ g.nodeIds ∨ v = n.node_id := by
  unfold addNode
  split
  · rename_i hc
    constructor
    · exact Or.inl
    · rintro (h | h)
      · exact h
      · subst h; exact List.elem_iff.mp hc
  · simp [List.mem_append]

theorem addNode_nodup (g : Graph) (n : NodeInput) (h : g.nodeIds.Nodup) :
    (addNode g n).nodeIds.Nodup := by
  unfold addNode
  split
  · exact h
  · rename_i hc
    simp only [List.nodup_append, List.nodup_cons]
    refine ⟨h, by simp, ?_⟩
    intro a ha hb
    rw [List.mem_singleton.mp hb] at ha
    exact hc (List.elem_iff.mpr ha)

theorem foldl_addNode_edges (nodes : List NodeInput) :
    ∀ g : Graph, (nodes.foldl addNode g).edges = g.edges := by
  induction nodes with
  | nil => intro g; rfl
  | cons n t ih => intro g; rw [List.foldl_cons, ih, addNode_edges]

theorem foldl_addNode_nodup (nodes : List NodeInput) :
    ∀ g : Graph, g.nodeIds.Nodup → (nodes.foldl addNode g).nodeIds.Nodup := by
  induction nodes with
  | nil => intro g h; exact h
  | cons n t ih => intro g h; exact ih (addNode g n) (addNode_nodup g n h)

theorem ensureNode_edges (g : Graph) (v : String) : (ensureNode g v).edges = g.edges := by
  unfold ensureNode
  split <;> rfl

theorem ensureNode_attrs (g : Graph) (v : String) : (ensureNode g v).attrs = g.attrs := by
  unfold ensureNode
  split <;> rfl

theorem ensureNode_mem (g : Graph) (v w : String) :
    w ∈ (ensureNode g v).nodeIds ↔ w ∈ g.nodeIds ∨ w = v := by
  unfold ensureNode
  split
  · rename_i hc
    constructor
    · exact Or.inl
    · rintro (h | h)
      · exact h
      · subst h; exact List.elem_iff.mp hc
  · simp [List.mem_append]

theorem ensureNode_nodup (g : Graph) (v : String) (h : g.nodeIds.Nodup) :
    (ensureNode g v).nodeIds.Nodup := by
  unfold ensureNode
  split
  · exact h
  · rename_i hc
    simp only [List.nodup_append, List.nodup_cons]
    refine ⟨h, by simp, ?_⟩
    intro a ha hb
    rw [List.mem_singleton.mp hb] at ha
    exact hc (List.elem_iff.mpr ha)

theorem addEdgeRecord_nodeIds (g : Graph) (s t : String) :
    (addEdgeRecord g s t).nodeIds = g.nodeIds := by
  unfold addEdgeRecord
  split <;> rfl

theorem addEdgeRecord_edges_mem (g : Graph) (s t : String) (p : String × String) :
    p ∈ (addEdgeRecord g s t).edges ↔ p ∈ g.edges ∨ p = (s, t) := by
  unfold addEdgeRecord
  split
  · rename_i hc
    constructor
    · exact Or.inl
    · rintro (h | h)
      · exact h
      · subst h; exact List.elem_iff.mp hc
  · simp [List.mem_append]

theorem addEdge_mem_nodeIds (g : Graph) (e : EdgeInput) (w : String) :
    w ∈ (addEdge g e).nodeIds ↔ w ∈ g.nodeIds ∨ w = e.source ∨ w = e.target := by
  unfold addEdge
  rw [addEdgeRecord_nodeIds, ensureNode_mem, ensureNode_mem]
  tauto

theorem addEdge_edges_mem (g : Graph) (e : EdgeInput) (p : String × String) :
    p ∈ (addEdge g e).edges ↔ p ∈ g.edges ∨ p = (e.source, e.target) := by
  unfold addEdge
  rw [addEdgeRecord_edges_mem, ensureNode_edges, ensureNode_edges]

theorem addEdge_nodup (g : Graph) (e : EdgeInput) (h : g.nodeIds.Nodup) :
    (addEdge g e).nodeIds.Nodup := by
  unfold addEdge
  rw [addEdgeRecord_nodeIds]
  exact ensureNode_nodup _ _ (ensureNode_nodup _ _ h)

theorem addEdge_wf (g : Graph) (e : EdgeInput) (h : GraphWF g) : GraphWF (addEdge g e) := by
  refine ⟨addEdge_nodup g e h.1, ?_⟩
  intro p hp
  rcases (addEdge_edges_mem g e p).mp hp with hold | hnew
  · have := h.2 p hold
    rw [addEdge_mem_nodeIds, addEdge_mem_nodeIds]
    exact ⟨Or.inl this.1, Or.inl this.2⟩
  · subst hnew
    rw [addEdge_mem_nodeIds, addEdge_mem_nodeIds]
    exact ⟨Or.inr (Or.inl rfl), Or.inr (Or.inr rfl)⟩

theorem foldl_addEdge_wf (edges : List EdgeInput) :
    ∀ g : Graph, GraphWF g → GraphWF (edges.foldl addEdge g) := by
  induction edges with
  | nil => intro g h; exact h
  | cons e t ih => intro g h; exact ih (addEdge g e) (addEdge_wf g e h)

theorem foldl_addEdge_edges_mem (edges : List EdgeInput) :
    ∀ (g : Graph) (p : String × String),
      p ∈ (edges.foldl addEdge g).edges ↔
        p ∈ g.edges ∨ ∃ e ∈ edges, (e.source, e.target) = p := by
  induction edges with
  | nil => intro g p; simp
  | cons e t ih =>
    intro g p
    rw [List.foldl_cons, ih, addEdge_edges_mem]
    constructor
    · rintro ((h | h) | ⟨e2, he2, hp⟩)
      · exact Or.inl h
      · exact Or.inr ⟨e, List.mem_cons_self e t, h.symm⟩
      · exact Or.inr ⟨e2, List.mem_cons_of_mem e he2, hp⟩
    · rintro (h | ⟨e2, he2, hp⟩)
      · exact Or.inl (Or.inl h)
      · rcases List.mem_cons.mp he2 with h2 | h2
        · subst h2; exact Or.inl (Or.inr hp.symm)
        · exact Or.inr ⟨e2, h2, hp⟩

theorem foldl_addEdge_endpoint_mem (edges : List EdgeInput) :
    ∀ (g : Graph) (e : EdgeInput), e ∈ edges →
      e.source ∈ (edges.foldl addEdge g).nodeIds ∧
      e.target ∈ (edges.foldl addEdge g).nodeIds := by
  have hmono : ∀ (rest : List EdgeInput) (g : Graph) (w : String),
      w ∈ g.nodeIds → w ∈ (rest.foldl addEdge g).nodeIds := by
    intro rest
    induction rest with
    | nil => intro g w h; exact h
    | cons e2 t2 ih2 =>
      intro g w h
      exact ih2 (addEdge g e2) w ((addEdge_mem_nodeIds g e2 w).mpr (Or.inl h))
  induction edges with
  | nil => intro g e he; cases he
  | cons e2 t ih =>
    intro g e he
    rcases List.mem_cons.mp he with h | h
    · subst h
      rw [List.foldl_cons]
      constructor
      · exact hmono t (addEdge g e) e.source
          ((addEdge_mem_nodeIds g e e.source).mpr (Or.inr (Or.inl rfl)))
      · exact hmono t (addEdge g e) e.target
          ((addEdge_mem_nodeIds g e e.target).mpr (Or.inr (Or.inr rfl)))
    · rw [List.foldl_cons]
      exact ih (addEdge g e2) e h

/-- The graph value `build_graph` constructs (before the DAG check). -/
def builtGraph (nodes : List NodeInput) (edges : List EdgeInput) : Graph :=
  edges.foldl addEdge (nodes.foldl addNode ⟨[], [], []⟩)

theorem build_graph_eq (nodes : List NodeInput) (edges : List EdgeInput) :
    build_graph nodes edges =
      if (topoSort (builtGraph nodes edges)).isSome then Except.ok (builtGraph nodes edges)
      else Except.error CalcError.cycleError := rfl

theorem builtGraph_wf (nodes : List NodeInput) (edges : List EdgeInput) :
    GraphWF (builtGraph nodes edges) := by
  apply foldl_addEdge_wf
  constructor
  · exact foldl_addNode_nodup nodes ⟨[], [], []⟩ List.nodup_nil
  · intro p hp
    rw [foldl_addNode_edges] at hp
    cases hp

theorem builtGraph_edges_mem (nodes : List NodeInput) (edges : List EdgeInput)
    (p : String × String) :
    p ∈ (builtGraph nodes edges).edges ↔ ∃ e ∈ edges, (e.source, e.target) = p := by
  unfold builtGraph
  rw [foldl_addEdge_edges_mem, foldl_addNode_edges]
  simp

theorem hasCycle_of_mem_iff (l1 l2 : List (String × String))
    (h : ∀ p, p ∈ l1 ↔ p ∈ l2) (hc : HasCycle l1) : HasCycle l2 := by
  obtain ⟨v, p, hchain⟩ := hc
  exact ⟨v, p, hchain.imp (fun a b hab => (h (a, b)).mp hab)⟩

theorem acyclic_of_mem_iff (l1 l2 : List (String × String))
    (h : ∀ p, p ∈ l1 ↔ p ∈ l2) (hac : Acyclic l1) : Acyclic l2 := by
  obtain ⟨rank, hr⟩ := hac
  exact ⟨rank, fun e he => hr e ((h e).mpr he)⟩

theorem builtGraph_edges_mem_iff_input (nodes : List NodeInput) (edges : List EdgeInput)
    (p : String × String) :
    p ∈ (builtGraph nodes edges).edges ↔
      p ∈ edges.map (fun e => (e.source, e.target)) := by
  rw [builtGraph_edges_mem]
  simp

theorem topoSort_builtGraph_none_of_hasCycle (nodes : List NodeInput)
    (edges : List EdgeInput)
    (hc : HasCycle (edges.map (fun e => (e.source, e.target)))) :
    topoSort (builtGraph nodes edges) = none := by
  have hcg : HasCycle (builtGraph nodes edges).edges :=
    hasCycle_of_mem_iff _ _
      (fun p => (builtGraph_edges_mem_iff_input nodes edges p).symm) hc
  cases hx : topoSort (builtGraph nodes edges) with
  | none => rfl
  | some out =>
    exfalso
    obtain ⟨hperm, her⟩ := topoSort_some_spec _ out hx
    have hwf := builtGraph_wf nodes edges
    have hnd : out.Nodup := (hperm.nodup_iff).mpr hwf.1
    have hmemo : ∀ e ∈ (builtGraph nodes edges).edges, e.1 ∈ out ∧ e.2 ∈ out := by
      intro e he
      have h2 := hwf.2 e he
      exact ⟨(hperm.mem_iff).mpr h2.1, (hperm.mem_iff).mpr h2.2⟩
    exact not_acyclic_of_hasCycle _ hcg
      (acyclic_of_edgeRespecting _ out hnd hmemo her)

theorem processNode_ok_results (db : List Technology) (g : Graph) (st : CalcState)
    (nid : String) (st2 : CalcState) (h : processNode db g st nid = Except.ok st2) :
    st2.results.map Prod.fst = st.results.map Prod.fst ++ [nid] := by
  unfold processNode at h
  split at h
  · cases h
  · split at h
    · cases h
    · have hx := Except.ok.inj h
      subst hx
      simp

theorem foldlM_processNode_results (db : List Technology) (g : Graph) :
    ∀ (order : List String) (st stf : CalcState),
      List.foldlM (processNode db g) st order = Except.ok stf →
      stf.results.map Prod.fst = st.results.map Prod.fst ++ order := by
  intro order
  induction order with
  | nil =>
    intro st stf h
    have hx : st = stf := Except.ok.inj h
    subst hx
    simp
  | cons nid t ih =>
    intro st stf h
    rw [List.foldlM_cons] at h
    cases hx : processNode db g st nid with
    | error e => rw [hx] at h; cases h
    | ok st1 =>
      rw [hx] at h
      rw [ih st1 stf h, processNode_ok_results db g st nid st1 hx]
      simp

/-- Claim C8: an edge set containing a directed cycle always aborts the
calculation with the cycle error, raised by `build_graph` before any node is
processed: both the build and the whole `calculate_route` call return the
cycle error, so no node results and no streams are produced, regardless of
the node list or the technology database. -/
theorem cyclic_route_aborts (db : List Technology) (nodes : List NodeInput)
    (edges : List EdgeInput)
    (hc : HasCycle (edges.map (fun e => (e.source, e.target)))) :
    build_graph nodes edges = Except.error CalcError.cycleError ∧
    calculate_route db nodes edges = Except.error CalcError.cycleError := by
  have hnone := topoSort_builtGraph_none_of_hasCycle nodes edges hc
  have hb : build_graph nodes edges = Except.error CalcError.cycleError := by
    rw [build_graph_eq, hnone]
    rfl
  refine ⟨hb, ?_⟩
  unfold calculate_route
  rw [hb]

theorem cyclic_route_aborts_witness :
    build_graph ([] : List NodeInput) [⟨"A", "B"⟩, ⟨"B", "A"⟩]
      = Except.error CalcError.cycleError ∧
    calculate_route [] ([] : List NodeInput) [⟨"A", "B"⟩, ⟨"B", "A"⟩]
      = Except.error CalcError.cycleError := by
  refine cyclic_route_aborts [] [] [⟨"A", "B"⟩, ⟨"B", "A"⟩] ⟨"A", ["B"], ?_⟩
  exact List.Chain.cons (by simp) (List.Chain.cons (by simp) List.Chain.nil)

/-- Claim C1: for every acyclic input graph the calculation terminates with a
topological processing order: the build succeeds, the calculation order
contains every graph node exactly once (no duplicates, and membership
coincides with the graph's node set), every edge's source strictly precedes
its target in it — so each node is processed only after all of its
predecessors, whose output streams were recorded when they were processed —
and a successful `calculate_route` emits per-node results keyed by exactly
this order. -/
theorem acyclic_route_processes_nodes_in_order (db : List Technology)
    (nodes : List NodeInput) (edges : List EdgeInput)
    (hac : Acyclic (edges.map (fun e => (e.source, e.target)))) :
    ∃ order,
      build_graph nodes edges = Except.ok (builtGraph nodes edges) ∧
      topoSort (builtGraph nodes edges) = some order ∧
      order.Nodup ∧
      (∀ v, v ∈ order ↔ v ∈ (builtGraph nodes edges).nodeIds) ∧
      EdgeRespecting (builtGraph nodes edges).edges order ∧
      (∀ r, calculate_route db nodes edges = Except.ok r →
        r.node_details.map Prod.fst = order) := by
  have hacg : Acyclic (builtGraph nodes edges).edges :=
    acyclic_of_mem_iff _ _
      (fun p => (builtGraph_edges_mem_iff_input nodes edges p).symm) hac
  have hsome : (topoSort (builtGraph nodes edges)).isSome :=
    topoAux_isSome_of_acyclic _ hacg _ _ (Nat.le_refl _)
  obtain ⟨order, horder⟩ := Option.isSome_iff_exists.mp hsome
  obtain ⟨hperm, her⟩ := topoSort_some_spec _ order horder
  have hwf := builtGraph_wf nodes edges
  have hbuild : build_graph nodes edges = Except.ok (builtGraph nodes edges) := by
    rw [build_graph_eq]
    simp [hsome]
  refine ⟨order, hbuild, horder, (hperm.nodup_iff).mpr hwf.1,
    fun v => hperm.mem_iff, her, ?_⟩
  intro r hr
  unfold calculate_route at hr
  rw [hbuild] at hr
  have hr2 : (match topoSort (builtGraph nodes edges) with
    | none => Except.error CalcError.cycleError
    | some calc_order =>
      match calc_order.foldlM (processNode db (builtGraph nodes edges))
          (⟨[], [], []⟩ : CalcState) with
      | Except.error e => Except.error e
      | Except.ok final =>
        Except.ok (aggregate_results final.results final.streams final.heap))
      = Except.ok r := hr
  rw [horder] at hr2
  have hr3 : (match List.foldlM (processNode db (builtGraph nodes edges))
      (⟨[], [], []⟩ : CalcState) order with
    | Except.error e => Except.error e
    | Except.ok final =>
      Except.ok (aggregate_results final.results final.streams final.heap))
      = Except.ok r := hr2
  cases hf : List.foldlM (processNode db (builtGraph nodes edges))
      (⟨[], [], []⟩ : CalcState) order with
  | error e =>
    exfalso
    rw [hf] at hr3
    cases hr3
  | ok final =>
    have hres := foldlM_processNode_results db _ order ⟨[], [], []⟩ final hf
    rw [hf] at hr3
    have hreq := Except.ok.inj hr3
    rw [← hreq]
    have hnd : (aggregate_results final.results final.streams final.heap).node_details
        = final.results := rfl
    rw [hnd, hres]
    simp

theorem acyclic_route_processes_nodes_in_order_witness :
    ∃ order,
      build_graph [⟨"A", "vinasse", []⟩, ⟨"B", "uasb", []⟩] [⟨"A", "B"⟩]
        = Except.ok (builtGraph [⟨"A", "vinasse", []⟩, ⟨"B", "uasb", []⟩] [⟨"A", "B"⟩]) ∧
      topoSort (builtGraph [⟨"A", "vinasse", []⟩, ⟨"B", "uasb", []⟩] [⟨"A", "B"⟩])
        = some order ∧
      order.Nodup ∧
      (∀ v, v ∈ order ↔
        v ∈ (builtGraph [⟨"A", "vinasse", []⟩, ⟨"B", "uasb", []⟩] [⟨"A", "B"⟩]).nodeIds) ∧
      EdgeRespecting
        (builtGraph [⟨"A", "vinasse", []⟩, ⟨"B", "uasb", []⟩] [⟨"A", "B"⟩]).edges order ∧
      (∀ r, calculate_route TECH_DB [⟨"A", "vinasse", []⟩, ⟨"B", "uasb", []⟩] [⟨"A", "B"⟩]
          = Except.ok r → r.node_details.map Prod.fst = order) :=
  acyclic_route_processes_nodes_in_order TECH_DB
    [⟨"A", "vinasse", []⟩, ⟨"B", "uasb", []⟩] [⟨"A", "B"⟩]
    ⟨fun v => if v = "A" then 0 else 1, by decide⟩

/-- Claim C3: every rule that reads a ratio-like supplied parameter divides a
value greater than 1 by 100 before use, identically in each rule: supplying
`x` (with 1 < x ≤ 100) is indistinguishable from supplying `x / 100` for the
digester efficiency, the upgrading recovery, and the end-use electrical and
thermal efficiencies (the latter covering both the CHP branch and the
boiler branch of the end-use rule). -/
theorem ratio_params_normalized_identically :
    (∀ (tech : Technology) (params : List (String × ℚ)) (combined : StreamProperties)
        (x : ℚ), 1 < x → x ≤ 100 →
      calc_digester tech (("efficiency", x) :: params) combined
        = calc_digester tech (("efficiency", x / 100) :: params) combined) ∧
    (∀ (tech : Technology) (params : List (String × ℚ)) (combined : StreamProperties)
        (x : ℚ), 1 < x → x ≤ 100 →
      calc_upgrading tech (("recovery", x) :: params) combined
        = calc_upgrading tech (("recovery", x / 100) :: params) combined) ∧
    (∀ (tech : Technology) (params : List (String × ℚ)) (combined : StreamProperties)
        (x : ℚ), 1 < x → x ≤ 100 →
      calc_enduse tech (("elec_efficiency", x) :: params) combined
        = calc_enduse tech (("elec_efficiency", x / 100) :: params) combined) ∧
    (∀ (tech : Technology) (params : List (String × ℚ)) (combined : StreamProperties)
        (x : ℚ), 1 < x → x ≤ 100 →
      calc_enduse tech (("therm_efficiency", x) :: params) combined
        = calc_enduse tech (("therm_efficiency", x / 100) :: params) combined) := by
  have hnorm : ∀ x : ℚ, 1 < x → x ≤ 100 →
      (if 1 < x then x / 100 else x) = (if 1 < x / 100 then x / 100 / 100 else x / 100) := by
    intro x h1 h2
    have hx : ¬ (1 < x / 100) := by
      intro hgt
      have : (100 : ℚ) < x := by linarith
      linarith
    rw [if_pos h1, if_neg hx]
  refine ⟨?_, ?_, ?_, ?_⟩
  · intro tech params combined x h1 h2
    simp only [calc_digester, dictGetD_cons_self]
    rw [hnorm x h1 h2]
  · intro tech params combined x h1 h2
    simp only [calc_upgrading, dictGetD_cons_self]
    rw [hnorm x h1 h2]
  · intro tech params combined x h1 h2
    have hth : ∀ (y d : ℚ), dictGetD (("elec_efficiency", y) :: params) "therm_efficiency" d
        = dictGetD params "therm_efficiency" d :=
      fun y d => dictGetD_cons_ne _ _ _ _ _ (by decide)
    have hep : ∀ (y d : ℚ), dictGetD (("elec_efficiency", y) :: params) "elec_price" d
        = dictGetD params "elec_price" d :=
      fun y d => dictGetD_cons_ne _ _ _ _ _ (by decide)
    have hpr : ∀ (y d : ℚ), dictGetD (("elec_efficiency", y) :: params) "price" d
        = dictGetD params "price" d :=
      fun y d => dictGetD_cons_ne _ _ _ _ _ (by decide)
    simp only [calc_enduse, dictGetD_cons_self, hth, hep, hpr]
    rw [hnorm x h1 h2]
  · intro tech params combined x h1 h2
    have hee : ∀ (y d : ℚ), dictGetD (("therm_efficiency", y) :: params) "elec_efficiency" d
        = dictGetD params "elec_efficiency" d :=
      fun y d => dictGetD_cons_ne _ _ _ _ _ (by decide)
    have hep : ∀ (y d : ℚ), dictGetD (("therm_efficiency", y) :: params) "elec_price" d
        = dictGetD params "elec_price" d :=
      fun y d => dictGetD_cons_ne _ _ _ _ _ (by decide)
    have hpr : ∀ (y d : ℚ), dictGetD (("therm_efficiency", y) :: params) "price" d
        = dictGetD params "price" d :=
      fun y d => dictGetD_cons_ne _ _ _ _ _ (by decide)
    simp only [calc_enduse, dictGetD_cons_self, hee, hep, hpr]
    rw [hnorm x h1 h2]

theorem ratio_params_normalized_identically_witness :
    (1 : ℚ) < 80 ∧ (80 : ℚ) ≤ 100 ∧
    calc_digester uasbTech [("efficiency", 80)] { cod := 25000 }
      = calc_digester uasbTech [("efficiency", 80 / 100)] { cod := 25000 } := by
  refine ⟨by norm_num, by norm_num, ?_⟩
  exact ratio_params_normalized_identically.1 uasbTech [] { cod := 25000 } 80
    (by norm_num) (by norm_num)

/-- Claim C4 counterexample: an edge whose target `"B"` names no node in the
node list does not make graph construction fail — `build_graph` returns a
graph in which `"B"` was silently added as an attribute-less node. -/
theorem build_graph_dangling_edge_no_failure :
    build_graph [⟨"A", "vinasse", []⟩] [⟨"A", "B"⟩]
      = Except.ok ⟨["A", "B"], [("A", ⟨"vinasse", []⟩)], [("A", "B")]⟩ ∧
    (∀ err, build_graph [⟨"A", "vinasse", []⟩] [⟨"A", "B"⟩] ≠ Except.error err) := by
  refine ⟨rfl, ?_⟩
  intro err h
  rw [show build_graph [⟨"A", "vinasse", []⟩] [⟨"A", "B"⟩]
      = Except.ok ⟨["A", "B"], [("A", ⟨"vinasse", []⟩)], [("A", "B")]⟩ from rfl] at h
  cases h

/-- Claim C4 (amended): graph construction never fails on a dangling edge
reference — its only failure is the cycle error — and on success every edge
endpoint (including ones absent from the node list) has been added to the
graph's node set; the missing-node failure instead surfaces later, when
`calculate_route` processes the auto-added node and finds no technology
attributes on it. -/
theorem build_graph_fails_only_on_cycles (nodes : List NodeInput) (edges : List EdgeInput) :
    (∀ err, build_graph nodes edges = Except.error err → err = CalcError.cycleError) ∧
    (∀ g, build_graph nodes edges = Except.ok g →
      ∀ e ∈ edges, e.source ∈ g.nodeIds ∧ e.target ∈ g.nodeIds) ∧
    (calculate_route TECH_DB [⟨"A", "vinasse", []⟩] [⟨"A", "B"⟩]
      = Except.error (CalcError.missingTechId "B")) := by
  refine ⟨?_, ?_, ?_⟩
  · intro err h
    rw [build_graph_eq] at h
    split at h
    · cases h
    · exact (Except.error.inj h).symm
  · intro g h e he
    rw [build_graph_eq] at h
    split at h
    · rw [← Except.ok.inj h]
      exact foldl_addEdge_endpoint_mem edges _ e he
    · cases h
  · rfl

theorem build_graph_fails_only_on_cycles_witness :
    ("A" : String) ∈ (⟨["A", "B"], [("A", ⟨"vinasse", []⟩)], [("A", "B")]⟩ : Graph).nodeIds ∧
    ("B" : String) ∈ (⟨["A", "B"], [("A", ⟨"vinasse", []⟩)], [("A", "B")]⟩ : Graph).nodeIds :=
  (build_graph_fails_only_on_cycles [⟨"A", "vinasse", []⟩] [⟨"A", "B"⟩]).2.1
    ⟨["A", "B"], [("A", ⟨"vinasse", []⟩)], [("A", "B")]⟩ rfl ⟨"A", "B"⟩ (by decide)

theorem checkEdge_ok_some_shape (db : List Technology) (nodes : List NodeInput)
    (e : EdgeInput) (err : ValidationError)
    (h : checkEdge db nodes e = Except.ok (some err)) :
    err = { edge := some (edgeLabel e), error := "Incompatible connection" } := by
  unfold checkEdge at h
  split at h
  · split at h
    · split at h
      · cases h
      · split at h
        · cases h
        · simp only [Except.ok.injEq, Option.some.injEq] at h
          exact h.symm
    · cases h
  · cases h

theorem mapM_checkEdge_ok (db : List Technology) (nodes : List NodeInput) :
    ∀ edges : List EdgeInput,
      (∀ e ∈ edges, ∃ v, checkEdge db nodes e = Except.ok v) →
      edges.mapM (checkEdge db nodes)
        = Except.ok (edges.map (checkEdgeVal db nodes)) := by
  intro edges
  induction edges with
  | nil => intro _; rfl
  | cons e t ih =>
    intro h
    obtain ⟨v, hv⟩ := h e (List.mem_cons_self e t)
    rw [List.mapM_cons, hv, ih (fun e2 he2 => h e2 (List.mem_cons_of_mem e he2))]
    simp only [List.map_cons, checkEdgeVal, hv]
    rfl

theorem reduceOption_map_checkEdgeVal (db : List Technology) (nodes : List NodeInput) :
    ∀ edges : List EdgeInput,
      (edges.map (checkEdgeVal db nodes)).reduceOption
        = (edges.filter (incompatibleEdge db nodes)).map
            (fun e => ({ edge := some (edgeLabel e),
                         error := "Incompatible connection" } : ValidationError)) := by
  intro edges
  induction edges with
  | nil => rfl
  | cons e t ih =>
    rw [List.map_cons, List.filter_cons]
    cases hx : checkEdge db nodes e with
    | error u =>
      have hval : checkEdgeVal db nodes e = none := by
        unfold checkEdgeVal
        rw [hx]
      have hinc : incompatibleEdge db nodes e = false := by
        unfold incompatibleEdge
        rw [hx]
      rw [hval, hinc, List.reduceOption_cons_of_none, ih]
      rfl
    | ok v =>
      cases v with
      | none =>
        have hval : checkEdgeVal db nodes e = none := by
          unfold checkEdgeVal
          rw [hx]
        have hinc : incompatibleEdge db nodes e = false := by
          unfold incompatibleEdge
          rw [hx]
        rw [hval, hinc, List.reduceOption_cons_of_none, ih]
        rfl
      | some err =>
        have hval : checkEdgeVal db nodes e = some err := by
          unfold checkEdgeVal
          rw [hx]
        have hinc : incompatibleEdge db nodes e = true := by
          unfold incompatibleEdge
          rw [hx]
        rw [hval, hinc, List.reduceOption_cons_of_some, ih,
          checkEdge_ok_some_shape db nodes e err hx]
        rfl

/-- Claim C10: on an acyclic route in which every edge's endpoints and
technologies resolve and at least one edge is incompatible (the target's
non-empty accepted-kind set does not meet the source's output-kind set),
`validate_route` returns normally with `valid: false` and exactly one error
entry per offending edge — all violations collected, none raised, no
stopping at the first. -/
theorem validate_route_collects_all_violations (db : List Technology)
    (nodes : List NodeInput) (edges : List EdgeInput)
    (hg : ∃ g, build_graph nodes edges = Except.ok g)
    (hres : ∀ e ∈ edges, ∃ v, checkEdge db nodes e = Except.ok v)
    (hbad : ∃ e ∈ edges, incompatibleEdge db nodes e = true) :
    validate_route db nodes edges = Except.ok
      { success := false
        valid := false
        errors := (edges.filter (incompatibleEdge db nodes)).map
          (fun e => { edge := some (edgeLabel e), error := "Incompatible connection" })
        message := none } := by
  obtain ⟨g, hgok⟩ := hg
  unfold validate_route
  rw [hgok, mapM_checkEdge_ok db nodes edges hres]
  have herr := reduceOption_map_checkEdgeVal db nodes edges
  have hne : ((edges.map (checkEdgeVal db nodes)).reduceOption).isEmpty = false := by
    rw [herr]
    obtain ⟨e, he, hinc⟩ := hbad
    have hmem : e ∈ edges.filter (incompatibleEdge db nodes) :=
      List.mem_filter.mpr ⟨he, hinc⟩
    cases hfil : edges.filter (incompatibleEdge db nodes) with
    | nil => rw [hfil] at hmem; cases hmem
    | cons a t => rfl
  have hstep : (if ((edges.map (checkEdgeVal db nodes)).reduceOption).isEmpty then
      (Except.ok { success := true, valid := true, errors := [],
                   message := some "Route configuration is valid" }
        : Except Unit ValidationResponse)
    else
      Except.ok { success := false
                  valid := false
                  errors := (edges.map (checkEdgeVal db nodes)).reduceOption
                  message := none })
      = Except.ok
          { success := false
            valid := false
            errors := (edges.filter (incompatibleEdge db nodes)).map
              (fun e => { edge := some (edgeLabel e), error := "Incompatible connection" })
            message := none } := by
    rw [hne]
    simp only [Bool.false_eq_true, if_false, herr]
  exact hstep

theorem validate_route_collects_all_violations_witness :
    validate_route TECH_DB [⟨"A", "vinasse", []⟩, ⟨"B", "flare", []⟩] [⟨"A", "B"⟩]
      = Except.ok
        { success := false
          valid := false
          errors := (([⟨"A", "B"⟩] : List EdgeInput).filter
              (incompatibleEdge TECH_DB [⟨"A", "vinasse", []⟩, ⟨"B", "flare", []⟩])).map
            (fun e => { edge := some (edgeLabel e), error := "Incompatible connection" })
          message := none } := by
  refine validate_route_collects_all_violations TECH_DB
    [⟨"A", "vinasse", []⟩, ⟨"B", "flare", []⟩] [⟨"A", "B"⟩]
    ⟨⟨["A", "B"], [("A", ⟨"vinasse", []⟩), ("B", ⟨"flare", []⟩)], [("A", "B")]⟩, rfl⟩
    ?_ ⟨⟨"A", "B"⟩, by decide, rfl⟩
  intro e he
  rw [List.mem_singleton.mp he]
  exact ⟨some { edge := some (edgeLabel ⟨"A", "B"⟩), error := "Incompatible connection" }, rfl⟩

/-- Claim C6 (refuted by evaluation): the category rules are *not* pure
functions of their inputs.  On the route vinasse(A) → thermal-hydrolysis(B),
the stream recorded for edge `A->B` when A is processed has volatile solids
17500 (the feedstock rule's output), but because `_sum_inputs` with a single
input returns that very object and `_calc_pretreatment` multiplies its
`vs_content` in place, the entry already recorded in the stream map ends the
calculation mutated to 17500 × 1.25 = 21875. -/
theorem pretreatment_mutates_recorded_stream :
    routeStreamVS TECH_DB
        [⟨"A", "vinasse", []⟩, ⟨"B", "thermal_hydrolysis", []⟩]
        [⟨"A", "B"⟩] "A->B" = some 21875 ∧
    (calc_feedstock vinasseTech []).1.vs_content = 17500 ∧
    (21875 : ℚ) ≠ 17500 := by
  refine ⟨?_, ?_, by norm_num⟩
  · have h : routeStreamVS TECH_DB
        [⟨"A", "vinasse", []⟩, ⟨"B", "thermal_hydrolysis", []⟩]
        [⟨"A", "B"⟩] "A->B" = some ((1000 * 25 * 0.7 : ℚ) * (1 + 25 / 100)) := rfl
    rw [h]
    norm_num
  · have h : (calc_feedstock vinasseTech []).1.vs_content = (1000 * 25 * 0.7 : ℚ) := rfl
    rw [h]
    norm_num

/-- Claim C7: the stream-sum operator is commutative and associative on the
flow/content fields (mass flow, volume flow, energy content, methane content,
COD, volatile solids), and summing two streams with masses 100 and 200 (all
other fields zero) yields mass exactly 300. -/
theorem streamSum_comm_assoc_flowFields :
    (∀ a b : StreamProperties, flowFields (a.add b) = flowFields (b.add a)) ∧
    (∀ a b c : StreamProperties,
      flowFields ((a.add b).add c) = flowFields (a.add (b.add c))) ∧
    (sumInputsVal [{ mass_flow := 100, temperature := 0, pressure := 0 },
                   { mass_flow := 200, temperature := 0, pressure := 0 }]).mass_flow
      = 300 := by
  refine ⟨?_, ?_, ?_⟩
  · intro a b
    simp [flowFields, StreamProperties.add]
    refine ⟨add_comm _ _, add_comm _ _, add_comm _ _, add_comm _ _, add_comm _ _, add_comm _ _⟩
  · intro a b c
    simp [flowFields, StreamProperties.add]
    refine ⟨add_assoc _ _ _, add_assoc _ _ _, add_assoc _ _ _,
            add_assoc _ _ _, add_assoc _ _ _, add_assoc _ _ _⟩
  · norm_num [sumInputsVal, StreamProperties.add]
